import Mathlib

/-!
Shallow embedding of the quoting engine in `example_models/VolumeAdjustW12_2.py`
(class `AutoTrader`).  Python floats are modelled by `ℚ`, machine integers by
`ℤ`/`ℕ` (prices and volumes fit comfortably, no overflow is reachable), the
`itertools.count(1)` order-id generator by an explicit `next_order_id` field,
`time.time()` by a `now` input, `time.sleep` by a `slept` output flag, and an
uncaught `ZeroDivisionError` by an `exn` output flag.
-/

namespace DeltaOne

/-- Exchange side of an order (`ready_trader_go.Side`); `ASK` aliases `sell`
and `BID` aliases `buy` in the library. -/
inductive Side where
  | buy
  | sell
deriving DecidableEq

/-- Order lifespan (`ready_trader_go.Lifespan`); only `GOOD_FOR_DAY` is used. -/
inductive Lifespan where
  | goodForDay
  | fillAndKill
deriving DecidableEq

/-- Outbound commands the engine sends to the exchange session
(`send_insert_order`, `send_cancel_order`, `send_hedge_order`). -/
inductive Command where
  | insert (id : ℕ) (side : Side) (price : ℤ) (volume : ℤ) (lifespan : Lifespan)
  | cancel (id : ℕ)
  | hedge (id : ℕ) (side : Side) (price : ℤ) (volume : ℤ)
deriving DecidableEq

/-- `ready_trader_go.Instrument.FUTURE`. -/
def FUTURE : ℕ := 0

def LOT_SIZE : ℤ := 10

def POSITION_LIMIT : ℤ := 100

def TICK_SIZE_IN_CENTS : ℤ := 100

/-- `ready_trader_go.MINIMUM_BID`. -/
def MINIMUM_BID : ℤ := 1

/-- `ready_trader_go.MAXIMUM_ASK` (2^31 - 1). -/
def MAXIMUM_ASK : ℤ := 2147483647

/-- `(MINIMUM_BID + TICK_SIZE_IN_CENTS) // TICK_SIZE_IN_CENTS * TICK_SIZE_IN_CENTS`;
all operands are nonnegative so every integer-division convention agrees with
Python floor division here. -/
def MIN_BID_NEAREST_TICK : ℤ :=
  (MINIMUM_BID + TICK_SIZE_IN_CENTS) / TICK_SIZE_IN_CENTS * TICK_SIZE_IN_CENTS

/-- `MAXIMUM_ASK // TICK_SIZE_IN_CENTS * TICK_SIZE_IN_CENTS`. -/
def MAX_ASK_NEAREST_TICK : ℤ :=
  MAXIMUM_ASK / TICK_SIZE_IN_CENTS * TICK_SIZE_IN_CENTS

/-- `self.risk_factor = 4`. -/
def risk_factor : ℤ := 4

/-- `self.position_step`, the ordered inventory breakpoints. -/
def position_step : List ℤ := [-94, -90, -81, -64, -44, 0, 1, 45, 65, 82, 91, 95]

/-- `self.quote_ladder`, the (bid_volume, ask_volume) buckets. -/
def quote_ladder : List (ℤ × ℤ) :=
  [(95, 97),
   (95, 95),
   (85, 90),
   (65, 82),
   (45, 70),
   (49 - risk_factor, 49 - risk_factor),
   (30, 30),
   (49 - risk_factor, 49 - risk_factor),
   (70 - risk_factor, 45 - risk_factor),
   (81 - risk_factor, 65),
   (90 - risk_factor, 85),
   (95 - risk_factor, 95),
   (97 - risk_factor, 95)]

/-- `self.l0_w = 0.35`. -/
def l0_w : ℚ := 35 / 100

/-- `self.l1_w = 0.65`. -/
def l1_w : ℚ := 65 / 100

/-- Python `bisect.bisect` (i.e. `bisect_right`) on a sorted list: the
insertion index of `x` keeping the list sorted and placing `x` after equal
elements, which on a sorted list is the number of elements `≤ x`. -/
def bisect (l : List ℤ) (x : ℤ) : ℕ := l.countP (fun e => decide (e ≤ x))

/-- Python `int(q)`: truncation toward zero. -/
def pyInt (q : ℚ) : ℤ := if 0 ≤ q then ⌊q⌋ else ⌈q⌉

/-- The mutable fields of `AutoTrader` (its `__init__` state).
`next_order_id` is the next value `next(self.order_ids)` would yield. -/
structure EngineState where
  next_order_id : ℕ
  ask_id : ℕ
  ask_price : ℤ
  bid_id : ℕ
  bid_price : ℤ
  position : ℤ
  size : ℤ
  bid_volume : ℤ
  ask_volume : ℤ
  new_bid_price : ℤ
  new_ask_price : ℤ
  last_bid_id : ℕ
  last_ask_id : ℕ
  abs_position : ℤ
  theo_price : ℤ
  bids : Finset ℕ
  asks : Finset ℕ
  start_second : ℚ
  current_time : ℚ
  time_diff : ℚ
  action_count : ℕ
  position_interval : ℕ
deriving DecidableEq

/-- The state established by `AutoTrader.__init__`. -/
def initialState : EngineState :=
  { next_order_id := 1
    ask_id := 0
    ask_price := 0
    bid_id := 0
    bid_price := 0
    position := 0
    size := 0
    bid_volume := 0
    ask_volume := 0
    new_bid_price := 0
    new_ask_price := 0
    last_bid_id := 0
    last_ask_id := 0
    abs_position := 0
    theo_price := 0
    bids := ∅
    asks := ∅
    start_second := 0
    current_time := 0
    time_diff := 0
    action_count := 0
    position_interval := 0 }

/-- Arguments of `on_order_book_update_message`, plus `now`, the value
`time.time()` returns during this call (the two call sites of `time.time()`
are never both reached in one invocation: the first fires only when
`action_count == 0`, the second only when it exceeds 14). -/
structure BookInput where
  instrument : ℕ
  sequence_number : ℕ
  ask_prices : List ℤ
  ask_volumes : List ℤ
  bid_prices : List ℤ
  bid_volumes : List ℤ
  now : ℚ
deriving DecidableEq

/-- Numerator of the fair-value weighted average (lines 125-128). -/
def numerOf (inp : BookInput) : ℚ :=
  ((inp.bid_prices.getD 0 0 * inp.bid_volumes.getD 0 0 : ℤ) : ℚ) * l0_w
    + ((inp.bid_prices.getD 1 0 * inp.bid_volumes.getD 1 0 : ℤ) : ℚ) * l1_w
    + ((inp.ask_prices.getD 0 0 * inp.ask_volumes.getD 0 0 : ℤ) : ℚ) * l0_w
    + ((inp.ask_prices.getD 1 0 * inp.ask_volumes.getD 1 0 : ℤ) : ℚ) * l1_w

/-- Denominator of the fair-value weighted average (lines 130-137). -/
def denomOf (inp : BookInput) : ℚ :=
  (inp.bid_volumes.getD 0 0 : ℚ) * l0_w + (inp.bid_volumes.getD 1 0 : ℚ) * l1_w
    + ((inp.ask_volumes.getD 0 0 : ℚ) * l0_w + (inp.ask_volumes.getD 1 0 : ℚ) * l1_w)

/-- `int(average / 100) * 100` (lines 120-143): the weighted average truncated
to the tick size. -/
def theoOf (inp : BookInput) : ℤ := pyInt (numerOf inp / denomOf inp / 100) * 100

/-- Lines 115-116: when `action_count == 0`, record the window start. -/
def startStage (s : EngineState) (now : ℚ) : EngineState :=
  if s.action_count = 0 then { s with start_second := now } else s

/-- Lines 119-147: recompute `theo_price` / `new_bid_price` / `new_ask_price`.
`none` models the `ZeroDivisionError` Python raises when the denominator is
zero (the division is unguarded in the source). -/
def recomputeStage (s : EngineState) (inp : BookInput) : Option EngineState :=
  if ¬ (0 : ℤ) ∈ inp.bid_prices ∧ s.action_count ≤ 16 then
    if denomOf inp = 0 then none
    else
      some { s with
        theo_price := theoOf inp
        new_bid_price := if inp.bid_prices.getD 0 0 ≠ 0 then theoOf inp - 100 else 0
        new_ask_price := if inp.ask_prices.getD 0 0 ≠ 0 then theoOf inp + 100 else 0 }
  else some s

/-- Lines 150-160: cancel resting quotes whose side's new target price differs
from the resting price and is not 0, while `action_count <= 16`. -/
def cancelStage (s : EngineState) : EngineState × List Command :=
  if s.action_count ≤ 16 then
    let p1 :=
      if s.bid_id ≠ 0 ∧ s.new_bid_price ≠ s.bid_price ∧ s.new_bid_price ≠ 0 then
        ({ s with bid_id := 0, action_count := s.action_count + 1 },
          [Command.cancel s.bid_id])
      else (s, ([] : List Command))
    let s1 := p1.1
    if s1.ask_id ≠ 0 ∧ s1.new_ask_price ≠ s1.ask_price ∧ s1.new_ask_price ≠ 0 then
      ({ s1 with ask_id := 0, action_count := s1.action_count + 1 },
        p1.2 ++ [Command.cancel s1.ask_id])
    else (s1, p1.2)
  else (s, [])

/-- Line 165: `bisect(self.position_step, self.position)`. -/
def positionInterval (p : ℤ) : ℕ := bisect position_step p

/-- Lines 167-169: `self.quote_ladder[self.position_interval]`. -/
def ladderBucket (p : ℤ) : ℤ × ℤ := quote_ladder.getD (positionInterval p) (0, 0)

/-- Lines 165-178: the inventory-aware sizing step, from bucket lookup through
the negative-volume clamp. -/
def sizeVolumes (p : ℤ) : ℤ × ℤ :=
  let bucket := ladderBucket p
  let bv := if 0 ≤ p then bucket.1 - p else bucket.1
  let av := if 0 ≤ p then bucket.2 else bucket.2 - |p|
  (if bv < 0 then 0 else bv, if av < 0 then 0 else av)

/-- Lines 165-214: sizing plus quote placement (runs when `action_count <= 14`). -/
def quoteStage (s : EngineState) : EngineState × List Command :=
  let s0 := { s with
    position_interval := positionInterval s.position
    bid_volume := (sizeVolumes s.position).1
    ask_volume := (sizeVolumes s.position).2 }
  let p1 :=
    if s0.bid_id = 0 ∧ s0.new_bid_price ≠ 0 ∧ s0.bid_volume ≠ 0 then
      ({ s0 with
          bid_id := s0.next_order_id
          bid_price := s0.new_bid_price
          next_order_id := s0.next_order_id + 1
          bids := insert s0.next_order_id s0.bids
          action_count := s0.action_count + 1 },
        [Command.insert s0.next_order_id Side.buy s0.new_bid_price s0.bid_volume
          Lifespan.goodForDay])
    else (s0, ([] : List Command))
  let s1 := p1.1
  if s1.ask_id = 0 ∧ s1.new_ask_price ≠ 0 ∧ s1.ask_volume ≠ 0 then
    ({ s1 with
        ask_id := s1.next_order_id
        ask_price := s1.new_ask_price
        next_order_id := s1.next_order_id + 1
        asks := insert s1.next_order_id s1.asks
        action_count := s1.action_count + 1 },
      p1.2 ++ [Command.insert s1.next_order_id Side.sell s1.new_ask_price s1.ask_volume
        Lifespan.goodForDay])
  else (s1, p1.2)

/-- Lines 216-227: record time, sleep out the rest of the second if needed,
reset the counter.  The `Bool` is true when `time.sleep` was called. -/
def throttleStage (s : EngineState) (now : ℚ) : EngineState × Bool :=
  ({ s with
      current_time := now
      time_diff := now - s.start_second
      action_count := 0 },
    decide (now - s.start_second < 1))

/-- Outcome of one `on_order_book_update_message` call: final state, commands
sent, whether a `ZeroDivisionError` escaped, whether `time.sleep` ran. -/
structure BookResult where
  state : EngineState
  commands : List Command
  exn : Bool
  slept : Bool
deriving DecidableEq

/-- `AutoTrader.on_order_book_update_message` (lines 101-227). -/
def on_order_book_update_message (s : EngineState) (inp : BookInput) : BookResult :=
  if inp.instrument = FUTURE then
    let s1 := startStage s inp.now
    match recomputeStage s1 inp with
    | none => ⟨s1, [], true, false⟩
    | some s2 =>
      let pc := cancelStage s2
      if pc.1.action_count ≤ 14 then
        let pq := quoteStage pc.1
        ⟨pq.1, pc.2 ++ pq.2, false, false⟩
      else if 14 ≤ pc.1.action_count then
        let pt := throttleStage pc.1 inp.now
        ⟨pt.1, pc.2, false, pt.2⟩
      else ⟨pc.1, pc.2, false, false⟩
  else ⟨s, [], false, false⟩

/-- `AutoTrader.on_order_status_message` (lines 229-243). -/
def on_order_status_message (s : EngineState) (client_order_id : ℕ)
    (fill_volume remaining_volume fees : ℤ) : EngineState :=
  if remaining_volume = 0 then
    let s1 :=
      if client_order_id = s.bid_id then { s with bid_id := 0 }
      else if client_order_id = s.ask_id then { s with ask_id := 0 }
      else s
    { s1 with
        bids := s1.bids.erase client_order_id
        asks := s1.asks.erase client_order_id }
  else s

/-- `AutoTrader.on_error_message` (lines 82-99): logs, then delegates to
`on_order_status_message(client_order_id, 0, 0, 0)`. -/
def on_error_message (s : EngineState) (client_order_id : ℕ) (msg : List ℕ) :
    EngineState :=
  on_order_status_message s client_order_id 0 0 0

/-- `AutoTrader.on_order_filled_message` (lines 245-269). -/
def on_order_filled_message (s : EngineState) (client_order_id : ℕ)
    (price volume : ℤ) : EngineState × List Command :=
  if client_order_id ∈ s.bids then
    ({ s with
        position := s.position + volume
        next_order_id := s.next_order_id + 1 },
      [Command.hedge s.next_order_id Side.sell MIN_BID_NEAREST_TICK volume])
  else if client_order_id ∈ s.asks then
    ({ s with
        position := s.position - volume
        next_order_id := s.next_order_id + 1 },
      [Command.hedge s.next_order_id Side.buy MAX_ASK_NEAREST_TICK volume])
  else (s, [])

/-- One inbound event, covering every handler of the class. -/
inductive Event where
  | book (inp : BookInput)
  | status (id : ℕ) (fill_volume remaining_volume fees : ℤ)
  | filled (id : ℕ) (price volume : ℤ)
  | error (id : ℕ) (msg : List ℕ)
  | ticks
deriving DecidableEq

/-- Dispatch one event to its handler. -/
def step (s : EngineState) : Event → EngineState × List Command
  | Event.book inp =>
    ((on_order_book_update_message s inp).state, (on_order_book_update_message s inp).commands)
  | Event.status id f r fees => (on_order_status_message s id f r fees, [])
  | Event.filled id p v => on_order_filled_message s id p v
  | Event.error id msg => (on_error_message s id msg, [])
  | Event.ticks => (s, [])

/-- Run a sequence of events, concatenating the commands issued. -/
def run (s : EngineState) : List Event → EngineState × List Command
  | [] => (s, [])
  | e :: es => ((run (step s e).1 es).1, (step s e).2 ++ (run (step s e).1 es).2)

/-- The order identity a command draws from the shared counter, if any
(inserts and hedges call `next(self.order_ids)`; cancels reuse an old id). -/
def issuedId : Command → Option ℕ
  | Command.insert id _ _ _ _ => some id
  | Command.hedge id _ _ _ => some id
  | Command.cancel _ => none

/-- The counter-drawn identities of a command list, in issuance order. -/
def issuedIds (l : List Command) : List ℕ := l.filterMap issuedId

/-- The target quote prices a book update leaves in `new_bid_price` /
`new_ask_price` after the recompute block (lines 119-147); `(0, 0)` when the
recompute raises. -/
def targetPrices (s : EngineState) (inp : BookInput) : ℤ × ℤ :=
  match recomputeStage (startStage s inp.now) inp with
  | none => (0, 0)
  | some u => (u.new_bid_price, u.new_ask_price)

/-- A FUTURE book with every bid price nonzero but all four weighted volumes
zero: the fair-value denominator vanishes. -/
def degenerateBook : BookInput :=
  { instrument := 0
    sequence_number := 1
    ask_prices := [600, 700, 800, 900, 1000]
    ask_volumes := [0, 0, 0, 0, 0]
    bid_prices := [100, 200, 300, 400, 500]
    bid_volumes := [0, 0, 0, 0, 0]
    now := 0 }

/-- A FUTURE book whose best bid is nonzero while deeper bid levels are empty
(price 0). -/
def onesidedBook : BookInput :=
  { instrument := 0
    sequence_number := 1
    ask_prices := [300, 0, 0, 0, 0]
    ask_volumes := [10, 0, 0, 0, 0]
    bid_prices := [200, 0, 0, 0, 0]
    bid_volumes := [10, 0, 0, 0, 0]
    now := 0 }

/-- A well-formed two-sided FUTURE book. -/
def niceBook : BookInput :=
  { instrument := 0
    sequence_number := 1
    ask_prices := [300, 300, 0, 0, 0]
    ask_volumes := [10, 10, 0, 0, 0]
    bid_prices := [100, 100, 100, 100, 100]
    bid_volumes := [10, 10, 0, 0, 0]
    now := 0 }

/-- A FUTURE book with no liquidity on either side, arriving at time `t`. -/
def emptyBook (t : ℚ) : BookInput :=
  { instrument := 0
    sequence_number := 1
    ask_prices := [0, 0, 0, 0, 0]
    ask_volumes := [0, 0, 0, 0, 0]
    bid_prices := [0, 0, 0, 0, 0]
    bid_volumes := [0, 0, 0, 0, 0]
    now := t }

/-- A state whose action counter sits exactly at the threshold 14. -/
def stateAt14 : EngineState := { initialState with action_count := 14 }

/-- A state whose action counter strictly exceeds the threshold. -/
def stateAt15 : EngineState := { initialState with action_count := 15 }

/-- A state with a working bid (id 7, price 300) and a working ask (id 8,
price 400) whose stored target bid price 500 differs from the resting price. -/
def workingState : EngineState :=
  { initialState with
      bid_id := 7
      bid_price := 300
      ask_id := 8
      ask_price := 400
      new_bid_price := 500
      new_ask_price := 400
      action_count := 3 }

/-- A state tracking order 7 as a bid. -/
def bidHolder : EngineState := { initialState with bids := {7}, next_order_id := 3 }

/-- A state tracking order 9 as an ask. -/
def askHolder : EngineState := { initialState with asks := {9}, next_order_id := 4 }

/-- A state with working bid 3 and working ask 4, both tracked. -/
def errState : EngineState :=
  { initialState with bid_id := 3, ask_id := 4, bids := {3}, asks := {4} }

end DeltaOne

namespace DeltaOne

theorem positionInterval_lt_len (p : ℤ) : positionInterval p < 13 := by
  have h : bisect position_step p ≤ position_step.length := by
    unfold bisect
    exact List.countP_le_length _
  have hlen : position_step.length = 12 := rfl
  unfold positionInterval
  omega

theorem ladderBucket_nonneg (p : ℤ) :
    0 ≤ (ladderBucket p).1 ∧ 0 ≤ (ladderBucket p).2 := by
  have h : positionInterval p < quote_ladder.length := by
    have := positionInterval_lt_len p
    have hlen : quote_ladder.length = 13 := rfl
    omega
  unfold ladderBucket
  rw [List.getD_eq_getElem _ _ h]
  have hall : ∀ x ∈ quote_ladder, 0 ≤ x.1 ∧ 0 ≤ x.2 := by decide
  exact hall _ (List.getElem_mem h)

/-- Claim C7: for every signed position, the sizing step yields nonnegative
bid and ask volumes, and their sum never exceeds the sum of the selected
ladder bucket's configured pair. -/
theorem c7_sizing_safe (p : ℤ) :
    0 ≤ (sizeVolumes p).1 ∧ 0 ≤ (sizeVolumes p).2 ∧
      (sizeVolumes p).1 + (sizeVolumes p).2 ≤ (ladderBucket p).1 + (ladderBucket p).2 := by
  obtain ⟨hB, hA⟩ := ladderBucket_nonneg p
  unfold sizeVolumes
  rcases le_or_lt 0 p with hp | hp
  · simp only [if_pos hp]
    split_ifs <;> refine ⟨by omega, by omega, by omega⟩
  · rw [abs_of_neg hp]
    simp only [if_neg (not_le.mpr hp)]
    split_ifs <;> refine ⟨by omega, by omega, by omega⟩

/-- Claim C2, counterexample: at position 0 the sizing step does not produce
the claimed bucket (49,49) reduced by the risk factor, i.e. (45,45). -/
theorem c2_counterexample : ladderBucket 0 ≠ (45, 45) ∧ sizeVolumes 0 ≠ (45, 45) := by
  decide

/-- Claim C2, amended: at position 0, `bisect` returns insertion index 6
(after the equal breakpoint 0), the selected ladder bucket is (30, 30), and
with no clamp applying the resulting volumes are bid 30 and ask 30. -/
theorem c2_position_zero_bucket :
    positionInterval 0 = 6 ∧ ladderBucket 0 = (30, 30) ∧ sizeVolumes 0 = (30, 30) := by
  decide

/-- Claim C8: a fill on an order tracked as a bid raises the position by the
filled volume and issues a sell hedge of that volume at the lowest tick; a
fill on a tracked ask (not tracked as a bid) lowers the position by the
filled volume and issues a buy hedge at the highest tick.  Both hedges draw
the next shared order id. -/
theorem c8_fill_hedge (s : EngineState) (id : ℕ) (price volume : ℤ) :
    (id ∈ s.bids →
        (on_order_filled_message s id price volume).1.position = s.position + volume ∧
          (on_order_filled_message s id price volume).2 =
            [Command.hedge s.next_order_id Side.sell MIN_BID_NEAREST_TICK volume]) ∧
      (id ∉ s.bids → id ∈ s.asks →
        (on_order_filled_message s id price volume).1.position = s.position - volume ∧
          (on_order_filled_message s id price volume).2 =
            [Command.hedge s.next_order_id Side.buy MAX_ASK_NEAREST_TICK volume]) := by
  constructor
  · intro h
    unfold on_order_filled_message
    rw [if_pos h]
    exact ⟨rfl, rfl⟩
  · intro h1 h2
    unfold on_order_filled_message
    rw [if_neg h1, if_pos h2]
    exact ⟨rfl, rfl⟩

theorem c8_fill_hedge_witness :
    ((on_order_filled_message bidHolder 7 22200 10).1.position = bidHolder.position + 10 ∧
        (on_order_filled_message bidHolder 7 22200 10).2 =
          [Command.hedge bidHolder.next_order_id Side.sell MIN_BID_NEAREST_TICK 10]) ∧
      ((on_order_filled_message askHolder 9 22200 10).1.position = askHolder.position - 10 ∧
        (on_order_filled_message askHolder 9 22200 10).2 =
          [Command.hedge askHolder.next_order_id Side.buy MAX_ASK_NEAREST_TICK 10]) :=
  ⟨(c8_fill_hedge bidHolder 7 22200 10).1 (by decide),
    (c8_fill_hedge askHolder 9 22200 10).2 (by decide) (by decide)⟩

/-- Claim C10: a fill notification whose id is tracked neither as a bid nor
as an ask leaves the whole state unchanged and issues no command. -/
theorem c10_unknown_fill_noop (s : EngineState) (id : ℕ) (price volume : ℤ)
    (hb : id ∉ s.bids) (ha : id ∉ s.asks) :
    on_order_filled_message s id price volume = (s, []) := by
  unfold on_order_filled_message
  rw [if_neg hb, if_neg ha]

theorem c10_unknown_fill_noop_witness :
    on_order_filled_message initialState 5 100 10 = (initialState, []) :=
  c10_unknown_fill_noop initialState 5 100 10 (by decide) (by decide)

/-- Claim C9: an error notification is handled exactly as an order-status
message with remaining volume 0: a matching working bid or ask resets to
Idle (id 0), the id is discarded from both tracked sets, and nothing else in
the state changes (restoring those four fields recovers the original state). -/
theorem status_zero_eq (s : EngineState) (id : ℕ) :
    on_order_status_message s id 0 0 0 =
      if id = s.bid_id then
        { s with bid_id := 0, bids := s.bids.erase id, asks := s.asks.erase id }
      else if id = s.ask_id then
        { s with ask_id := 0, bids := s.bids.erase id, asks := s.asks.erase id }
      else { s with bids := s.bids.erase id, asks := s.asks.erase id } := by
  unfold on_order_status_message
  rw [if_pos rfl]
  by_cases hb : id = s.bid_id
  · simp only [if_pos hb]
  · by_cases ha : id = s.ask_id
    · simp only [if_neg hb, if_pos ha]
    · simp only [if_neg hb, if_neg ha]

theorem c9_error_resets (s : EngineState) (id : ℕ) (msg : List ℕ)
    (hids : s.bid_id = s.ask_id → s.bid_id = 0) :
    on_error_message s id msg = on_order_status_message s id 0 0 0 ∧
      (on_error_message s id msg).bid_id = (if id = s.bid_id then 0 else s.bid_id) ∧
      (on_error_message s id msg).ask_id = (if id = s.ask_id then 0 else s.ask_id) ∧
      (on_error_message s id msg).bids = s.bids.erase id ∧
      (on_error_message s id msg).asks = s.asks.erase id ∧
      { on_error_message s id msg with
          bid_id := s.bid_id, ask_id := s.ask_id, bids := s.bids, asks := s.asks } = s := by
  have heq : on_error_message s id msg = on_order_status_message s id 0 0 0 := rfl
  have hchar := status_zero_eq s id
  refine ⟨heq, ?_, ?_, ?_, ?_, ?_⟩ <;> rw [heq, hchar] <;>
    split_ifs with h1 h2 <;>
    first
      | rfl
      | (dsimp only
         have h0 : s.bid_id = 0 := hids (by omega)
         omega)

theorem startStage_action_count (s : EngineState) (now : ℚ) :
    (startStage s now).action_count = s.action_count := by
  unfold startStage
  split_ifs <;> rfl

theorem startStage_of_ne (s : EngineState) (now : ℚ) (h : s.action_count ≠ 0) :
    startStage s now = s := by
  unfold startStage
  rw [if_neg h]

theorem recomputeStage_some_fields (s : EngineState) (inp : BookInput) (u : EngineState)
    (h : recomputeStage s inp = some u) :
    u.next_order_id = s.next_order_id ∧ u.bid_id = s.bid_id ∧ u.ask_id = s.ask_id ∧
      u.bid_price = s.bid_price ∧ u.ask_price = s.ask_price ∧
      u.action_count = s.action_count ∧ u.start_second = s.start_second ∧
      u.position = s.position := by
  unfold recomputeStage at h
  split_ifs at h <;>
    first
      | (obtain rfl := Option.some.inj h
         exact ⟨rfl, rfl, rfl, rfl, rfl, rfl, rfl, rfl⟩)
      | cases h

theorem cancelStage_start_second (s : EngineState) :
    (cancelStage s).1.start_second = s.start_second := by
  unfold cancelStage
  dsimp only
  split_ifs <;> rfl

theorem cancelStage_theo (s : EngineState) :
    (cancelStage s).1.theo_price = s.theo_price := by
  unfold cancelStage
  dsimp only
  split_ifs <;> rfl

theorem cancelStage_next (s : EngineState) :
    (cancelStage s).1.next_order_id = s.next_order_id := by
  unfold cancelStage
  dsimp only
  split_ifs <;> rfl

theorem cancelStage_count_ge (s : EngineState) :
    s.action_count ≤ (cancelStage s).1.action_count := by
  unfold cancelStage
  dsimp only
  split_ifs <;> dsimp only <;> omega

theorem quoteStage_theo (s : EngineState) :
    (quoteStage s).1.theo_price = s.theo_price := by
  unfold quoteStage
  dsimp only
  split_ifs <;> rfl

theorem startStage_bid_id (s : EngineState) (now : ℚ) :
    (startStage s now).bid_id = s.bid_id := by
  unfold startStage
  split_ifs <;> rfl

theorem startStage_ask_id (s : EngineState) (now : ℚ) :
    (startStage s now).ask_id = s.ask_id := by
  unfold startStage
  split_ifs <;> rfl

theorem startStage_bid_price (s : EngineState) (now : ℚ) :
    (startStage s now).bid_price = s.bid_price := by
  unfold startStage
  split_ifs <;> rfl

theorem startStage_ask_price (s : EngineState) (now : ℚ) :
    (startStage s now).ask_price = s.ask_price := by
  unfold startStage
  split_ifs <;> rfl

theorem cancelStage_cmds (s : EngineState) (h : s.action_count ≤ 16) :
    (cancelStage s).2 =
      (if s.bid_id ≠ 0 ∧ s.new_bid_price ≠ s.bid_price ∧ s.new_bid_price ≠ 0 then
        [Command.cancel s.bid_id] else [])
      ++ (if s.ask_id ≠ 0 ∧ s.new_ask_price ≠ s.ask_price ∧ s.new_ask_price ≠ 0 then
        [Command.cancel s.ask_id] else []) := by
  unfold cancelStage
  rw [if_pos h]
  dsimp only
  split_ifs <;> simp

theorem quoteStage_no_cancel (s : EngineState) (i : ℕ) :
    Command.cancel i ∉ (quoteStage s).2 := by
  unfold quoteStage
  dsimp only
  split_ifs <;> simp

theorem mem_cancel_append_quote (t u : EngineState) (c : ℕ) :
    (Command.cancel c ∈ (cancelStage t).2 ++ (quoteStage u).2 ↔
      Command.cancel c ∈ (cancelStage t).2) := by
  rw [List.mem_append]
  constructor
  · rintro (h | h)
    · exact h
    · exact absurd h (quoteStage_no_cancel u c)
  · exact Or.inl

theorem c5_core (t : EngineState) (ht : t.action_count ≤ 16)
    (hids : t.bid_id = t.ask_id → t.bid_id = 0) :
    (Command.cancel t.bid_id ∈ (cancelStage t).2 ↔
        t.bid_id ≠ 0 ∧ t.new_bid_price ≠ t.bid_price ∧ t.new_bid_price ≠ 0) ∧
      (Command.cancel t.ask_id ∈ (cancelStage t).2 ↔
        t.ask_id ≠ 0 ∧ t.new_ask_price ≠ t.ask_price ∧ t.new_ask_price ≠ 0) ∧
      (∀ i, Command.cancel i ∈ (cancelStage t).2 → i = t.bid_id ∨ i = t.ask_id) := by
  rw [cancelStage_cmds t ht]
  refine ⟨⟨?_, ?_⟩, ⟨?_, ?_⟩, ?_⟩
  · intro hm
    rcases List.mem_append.mp hm with hm | hm
    · split_ifs at hm with h1
      · exact h1
      · simp at hm
    · split_ifs at hm with h2
      · simp only [List.mem_singleton, Command.cancel.injEq] at hm
        have h0 := hids hm
        exact absurd (by omega : t.ask_id = 0) h2.1
      · simp at hm
  · intro hc
    refine List.mem_append.mpr (Or.inl ?_)
    rw [if_pos hc]
    simp
  · intro hm
    rcases List.mem_append.mp hm with hm | hm
    · split_ifs at hm with h1
      · simp only [List.mem_singleton, Command.cancel.injEq] at hm
        have h0 := hids hm.symm
        exact absurd (by omega : t.bid_id = 0) h1.1
      · simp at hm
    · split_ifs at hm with h2
      · exact h2
      · simp at hm
  · intro hc
    refine List.mem_append.mpr (Or.inr ?_)
    rw [if_pos hc]
    simp
  · intro i hi
    rcases List.mem_append.mp hi with hm | hm
    · split_ifs at hm with h1
      · simp only [List.mem_singleton, Command.cancel.injEq] at hm
        exact Or.inl hm
      · simp at hm
    · split_ifs at hm with h2
      · simp only [List.mem_singleton, Command.cancel.injEq] at hm
        exact Or.inr hm
      · simp at hm

/-- Claim C1 (code bug): on a FUTURE update whose bid prices are all nonzero
but whose four weighted level volumes are all zero, the fair-value
denominator is zero and the unguarded division raises a `ZeroDivisionError`
that escapes the handler with no command issued, instead of the update being
treated as "no update this cycle". -/
theorem c1_zero_denominator_raises :
    denomOf degenerateBook = 0 ∧
      (on_order_book_update_message initialState degenerateBook).exn = true ∧
      (on_order_book_update_message initialState degenerateBook).commands = [] := by
  refine ⟨?_, ?_, ?_⟩ <;>
    norm_num [on_order_book_update_message, startStage, recomputeStage, denomOf, degenerateBook,
      initialState, FUTURE, l0_w, l1_w]

/-- Claim C3, counterexample: a FUTURE update whose best bid price is nonzero
(200) while a deeper bid level is 0, with action count 0, leaves the
fair-value estimate unchanged at 0, although the claimed volume-weighted
average of the best two levels of each side is 200: the code gates the
recompute on all five bid prices being nonzero, not on the best bid. -/
theorem c3_counterexample :
    onesidedBook.bid_prices.getD 0 0 = 200 ∧
      initialState.action_count = 0 ∧
      pyInt (numerOf onesidedBook / denomOf onesidedBook / 100) * 100 = 200 ∧
      (on_order_book_update_message initialState onesidedBook).state.theo_price = 0 := by
  refine ⟨rfl, rfl, ?_, ?_⟩
  · norm_num [pyInt, numerOf, denomOf, onesidedBook, l0_w, l1_w]
  · norm_num [on_order_book_update_message, startStage, recomputeStage, cancelStage, quoteStage,
      throttleStage, onesidedBook, initialState, FUTURE]

/-- Claim C3, amended: on a FUTURE update in which all five reported bid
prices are nonzero (the code tests the whole list, not just the best bid),
the action count is at most 16, and the weighted-volume denominator is
nonzero, the fair-value estimate is recomputed as the volume-weighted
average of the best two bid and ask levels (level weights 0.35 and 0.65),
truncated to an integer multiple of the tick size, and no exception
escapes. -/
theorem c3_fair_value_recompute (s : EngineState) (inp : BookInput)
    (hfut : inp.instrument = FUTURE)
    (hbp : (0 : ℤ) ∉ inp.bid_prices)
    (hcnt : s.action_count ≤ 16)
    (hden : denomOf inp ≠ 0) :
    (on_order_book_update_message s inp).state.theo_price
        = pyInt (numerOf inp / denomOf inp / 100) * 100 ∧
      (on_order_book_update_message s inp).exn = false := by
  have hguard : ¬ (0 : ℤ) ∈ inp.bid_prices ∧ (startStage s inp.now).action_count ≤ 16 :=
    ⟨hbp, by rw [startStage_action_count]; exact hcnt⟩
  have hrec : recomputeStage (startStage s inp.now) inp =
      some { startStage s inp.now with
        theo_price := theoOf inp
        new_bid_price := if inp.bid_prices.getD 0 0 ≠ 0 then theoOf inp - 100 else 0
        new_ask_price := if inp.ask_prices.getD 0 0 ≠ 0 then theoOf inp + 100 else 0 } := by
    unfold recomputeStage
    rw [if_pos hguard, if_neg hden]
  unfold on_order_book_update_message
  rw [if_pos hfut]
  dsimp only
  rw [hrec]
  dsimp only
  constructor
  · split_ifs <;>
      first
        | (dsimp only
           rw [quoteStage_theo, cancelStage_theo]
           rfl)
        | (dsimp only [throttleStage]
           rw [cancelStage_theo]
           rfl)
        | (dsimp only
           rw [cancelStage_theo]
           rfl)
  · split_ifs <;> rfl

theorem c3_fair_value_recompute_witness :
    (on_order_book_update_message initialState niceBook).state.theo_price
        = pyInt (numerOf niceBook / denomOf niceBook / 100) * 100 ∧
      (on_order_book_update_message initialState niceBook).exn = false :=
  c3_fair_value_recompute initialState niceBook rfl (by decide) (by decide)
    (by norm_num [denomOf, niceBook, l0_w, l1_w])

/-- Claim C4, counterexample: with the action counter exactly at 14 at the
start of a FUTURE book update and no cancellation firing, the handler leaves
the counter at 14 and neither waits nor resets: the reset branch is the
`elif` of `action_count <= 14`, so it runs only when the counter strictly
exceeds 14 after the cancel stage. -/
theorem c4_counterexample :
    stateAt14.action_count = 14 ∧
      (on_order_book_update_message stateAt14 (emptyBook 5)).state.action_count = 14 ∧
      (on_order_book_update_message stateAt14 (emptyBook 5)).slept = false := by
  refine ⟨rfl, ?_, ?_⟩ <;>
    norm_num [on_order_book_update_message, startStage, recomputeStage, cancelStage, quoteStage,
      stateAt14, emptyBook, initialState, FUTURE]

/-- Claim C4, amended: whenever the action counter strictly exceeds 14 (is at
least 15) at the start of a FUTURE book-update decision that does not raise,
the engine records the elapsed wall-clock time since the window's start,
sleeps exactly when less than one second has elapsed, and resets the counter
to 0; the new window start is recorded at the beginning of the next FUTURE
update, when the counter is 0. -/
theorem c4_throttle_reset (s : EngineState) (inp : BookInput)
    (hfut : inp.instrument = FUTURE)
    (hcnt : 15 ≤ s.action_count)
    (hexn : (on_order_book_update_message s inp).exn = false) :
    (on_order_book_update_message s inp).state.action_count = 0 ∧
      (on_order_book_update_message s inp).state.time_diff = inp.now - s.start_second ∧
      (on_order_book_update_message s inp).slept = decide (inp.now - s.start_second < 1) := by
  have hne : startStage s inp.now = s := startStage_of_ne s inp.now (by omega)
  unfold on_order_book_update_message at hexn ⊢
  rw [if_pos hfut, hne] at hexn ⊢
  dsimp only at hexn ⊢
  rcases hrec : recomputeStage s inp with _ | s2
  · rw [hrec] at hexn
    exact Bool.noConfusion hexn
  · dsimp only at hexn ⊢
    obtain ⟨-, -, -, -, -, hcntr, hss, -⟩ := recomputeStage_some_fields s inp s2 hrec
    have hcge := cancelStage_count_ge s2
    have hnot : ¬ (cancelStage s2).1.action_count ≤ 14 := by omega
    rw [if_neg hnot, if_pos (by omega)]
    dsimp only [throttleStage]
    rw [cancelStage_start_second s2, hss]
    exact ⟨rfl, rfl, rfl⟩

theorem c4_throttle_reset_witness :
    (on_order_book_update_message stateAt15 (emptyBook 5)).state.action_count = 0 ∧
      (on_order_book_update_message stateAt15 (emptyBook 5)).state.time_diff = 5 ∧
      (on_order_book_update_message stateAt15 (emptyBook 5)).slept = false := by
  have hexn : (on_order_book_update_message stateAt15 (emptyBook 5)).exn = false := by
    norm_num [on_order_book_update_message, startStage, recomputeStage, cancelStage,
      stateAt15, emptyBook, initialState, FUTURE]
  have h := c4_throttle_reset stateAt15 (emptyBook 5) rfl (by decide) hexn
  refine ⟨h.1, ?_, ?_⟩
  · rw [h.2.1]
    norm_num [emptyBook, stateAt15, initialState]
  · rw [h.2.2]
    simp only [emptyBook, stateAt15, initialState, decide_eq_false_iff_not]
    norm_num

/-- Claim C5: on a FUTURE book update processed within the action budget
(counter at most 16) that does not raise, and with distinct working ids, a
side's resting quote is cancelled if and only if that side is Working
(nonzero id), its new target price differs from the resting price, and the
new target price is not 0; moreover every cancel issued names one of the two
working ids, so updates that change no target price cause no cancel churn. -/
theorem c5_cancel_iff (s : EngineState) (inp : BookInput)
    (hfut : inp.instrument = FUTURE)
    (hcnt : s.action_count ≤ 16)
    (hexn : (on_order_book_update_message s inp).exn = false)
    (hids : s.bid_id = s.ask_id → s.bid_id = 0) :
    (Command.cancel s.bid_id ∈ (on_order_book_update_message s inp).commands ↔
        s.bid_id ≠ 0 ∧ (targetPrices s inp).1 ≠ s.bid_price ∧ (targetPrices s inp).1 ≠ 0) ∧
      (Command.cancel s.ask_id ∈ (on_order_book_update_message s inp).commands ↔
        s.ask_id ≠ 0 ∧ (targetPrices s inp).2 ≠ s.ask_price ∧ (targetPrices s inp).2 ≠ 0) ∧
      ∀ i, Command.cancel i ∈ (on_order_book_update_message s inp).commands →
        i = s.bid_id ∨ i = s.ask_id := by
  unfold on_order_book_update_message at hexn ⊢
  rw [if_pos hfut] at hexn ⊢
  dsimp only at hexn ⊢
  rcases hrec : recomputeStage (startStage s inp.now) inp with _ | s2
  · rw [hrec] at hexn
    exact Bool.noConfusion hexn
  · obtain ⟨-, hbid, hask, hbp', hap', hcnt2, -, -⟩ :=
      recomputeStage_some_fields (startStage s inp.now) inp s2 hrec
    have hB : s2.bid_id = s.bid_id := by rw [hbid, startStage_bid_id]
    have hA : s2.ask_id = s.ask_id := by rw [hask, startStage_ask_id]
    have hBP : s2.bid_price = s.bid_price := by rw [hbp', startStage_bid_price]
    have hAP : s2.ask_price = s.ask_price := by rw [hap', startStage_ask_price]
    have hC : s2.action_count = s.action_count := by rw [hcnt2, startStage_action_count]
    have htp : targetPrices s inp = (s2.new_bid_price, s2.new_ask_price) := by
      unfold targetPrices
      rw [hrec]
    have hcore := c5_core s2 (by omega) (by rw [hB, hA]; exact hids)
    rw [hB, hA, hBP, hAP] at hcore
    rw [htp]
    dsimp only
    split_ifs
    · dsimp only
      refine ⟨?_, ?_, ?_⟩
      · rw [mem_cancel_append_quote]
        exact hcore.1
      · rw [mem_cancel_append_quote]
        exact hcore.2.1
      · intro i hi
        rw [mem_cancel_append_quote] at hi
        exact hcore.2.2 i hi
    · dsimp only
      exact ⟨hcore.1, hcore.2.1, hcore.2.2⟩
    · dsimp only
      exact ⟨hcore.1, hcore.2.1, hcore.2.2⟩

theorem c5_cancel_iff_witness :
    Command.cancel 7 ∈ (on_order_book_update_message workingState (emptyBook 0)).commands :=
  (c5_cancel_iff workingState (emptyBook 0) rfl (by decide)
      (by norm_num [on_order_book_update_message, startStage, recomputeStage, cancelStage,
        quoteStage, throttleStage, workingState, emptyBook, initialState, FUTURE])
      (by decide)).1.mpr
    (by refine ⟨by decide, ?_, ?_⟩ <;>
      norm_num [targetPrices, startStage, recomputeStage, workingState, emptyBook, initialState])

theorem c9_error_resets_witness :
    on_error_message errState 3 [] = on_order_status_message errState 3 0 0 0 ∧
      (on_error_message errState 3 []).bid_id = (if 3 = errState.bid_id then 0 else errState.bid_id) ∧
      (on_error_message errState 3 []).ask_id = (if 3 = errState.ask_id then 0 else errState.ask_id) ∧
      (on_error_message errState 3 []).bids = errState.bids.erase 3 ∧
      (on_error_message errState 3 []).asks = errState.asks.erase 3 ∧
      { on_error_message errState 3 [] with
          bid_id := errState.bid_id, ask_id := errState.ask_id,
          bids := errState.bids, asks := errState.asks } = errState :=
  c9_error_resets errState 3 [] (by decide)

theorem cancelStage_issued (s : EngineState) :
    (cancelStage s).1.next_order_id = s.next_order_id ∧
      issuedIds (cancelStage s).2 = [] := by
  unfold cancelStage
  dsimp only
  split_ifs <;> simp [issuedIds, issuedId]

theorem quoteStage_issued (s : EngineState) :
    s.next_order_id ≤ (quoteStage s).1.next_order_id ∧
      List.Pairwise (· < ·) (issuedIds (quoteStage s).2) ∧
      ∀ i ∈ issuedIds (quoteStage s).2,
        s.next_order_id ≤ i ∧ i < (quoteStage s).1.next_order_id := by
  unfold quoteStage
  dsimp only
  split_ifs <;> simp [issuedIds, issuedId] <;> omega

theorem throttleStage_next (s : EngineState) (now : ℚ) :
    (throttleStage s now).1.next_order_id = s.next_order_id := rfl

theorem status_next (s : EngineState) (id : ℕ) (f r fees : ℤ) :
    (on_order_status_message s id f r fees).next_order_id = s.next_order_id := by
  unfold on_order_status_message
  dsimp only
  split_ifs <;> rfl

theorem step_issued (s : EngineState) (e : Event) :
    s.next_order_id ≤ (step s e).1.next_order_id ∧
      List.Pairwise (· < ·) (issuedIds (step s e).2) ∧
      ∀ i ∈ issuedIds (step s e).2,
        s.next_order_id ≤ i ∧ i < (step s e).1.next_order_id := by
  cases e with
  | book inp =>
    dsimp only [step]
    unfold on_order_book_update_message
    split_ifs with hfut
    · dsimp only
      have hs : (startStage s inp.now).next_order_id = s.next_order_id := by
        unfold startStage
        split_ifs <;> rfl
      rcases hrec : recomputeStage (startStage s inp.now) inp with _ | s2
      · dsimp only
        simp [hs, issuedIds]
      · obtain ⟨hnext, -, -, -, -, -, -, -⟩ :=
          recomputeStage_some_fields (startStage s inp.now) inp s2 hrec
        have hN : s2.next_order_id = s.next_order_id := by rw [hnext, hs]
        obtain ⟨hc1, hc2⟩ := cancelStage_issued s2
        obtain ⟨hq1, hq2, hq3⟩ := quoteStage_issued (cancelStage s2).1
        dsimp only
        split_ifs
        · dsimp only
          rw [issuedIds, List.filterMap_append]
          rw [issuedIds] at hc2 hq2 hq3
          rw [hc2]
          simp only [List.nil_append]
          refine ⟨by omega, hq2, ?_⟩
          intro i hi
          have := hq3 i hi
          omega
        · dsimp only
          rw [hc2]
          simp [throttleStage_next, hc1, hN]
        · dsimp only
          rw [hc2]
          simp [hc1, hN]
    · simp [issuedIds]
  | status id f r fees =>
    dsimp only [step]
    simp [status_next, issuedIds]
  | filled id p v =>
    dsimp only [step]
    unfold on_order_filled_message
    split_ifs <;> simp [issuedIds, issuedId] <;> omega
  | error id msg =>
    dsimp only [step]
    unfold on_error_message
    simp [status_next, issuedIds]
  | ticks =>
    dsimp only [step]
    simp [issuedIds]

theorem run_issued (es : List Event) : ∀ s : EngineState,
    s.next_order_id ≤ (run s es).1.next_order_id ∧
      List.Pairwise (· < ·) (issuedIds (run s es).2) ∧
      ∀ i ∈ issuedIds (run s es).2,
        s.next_order_id ≤ i ∧ i < (run s es).1.next_order_id := by
  induction es with
  | nil =>
    intro s
    simp [run, issuedIds]
  | cons e es ih =>
    intro s
    obtain ⟨h1, h2, h3⟩ := step_issued s e
    obtain ⟨g1, g2, g3⟩ := ih (step s e).1
    dsimp only [run]
    refine ⟨le_trans h1 g1, ?_, ?_⟩
    · rw [issuedIds, List.filterMap_append, List.pairwise_append]
      rw [issuedIds] at h2 g2
      refine ⟨h2, g2, ?_⟩
      intro a ha b hb
      have hha := h3 a ha
      have hgb := g3 b hb
      omega
    · intro i hi
      rw [issuedIds, List.filterMap_append, List.mem_append] at hi
      rcases hi with hi | hi
      · have := h3 i hi
        constructor
        · omega
        · exact lt_of_lt_of_le this.2 g1
      · have := g3 i hi
        constructor
        · omega
        · exact this.2

/-- Claim C6: over any event sequence from the initial state, the order
identities issued by inserts and hedges — all drawn from the single shared
counter — are strictly increasing in issuance order and globally unique. -/
theorem c6_order_ids_strictly_increasing (es : List Event) :
    List.Pairwise (· < ·) (issuedIds (run initialState es).2) ∧
      (issuedIds (run initialState es).2).Nodup := by
  obtain ⟨-, h2, -⟩ := run_issued es initialState
  exact ⟨h2, List.Pairwise.imp (fun h => Nat.ne_of_lt h) h2⟩

end DeltaOne
